import Mathlib

/-!
Shallow embedding of the timelapse-viewer media-discovery and playback-state
code: the hooks in `src/hooks/useFolders.ts` (useFolders, useFiles with its
retry loop, useVideos) and the selection / navigation / image-loading logic
of `src/App.tsx`.  Machine integers are modelled as `Int`, directory
listings as lists of entries, and the asynchronous image-fetch lifecycle as
an explicit event trace.
-/

/-- Entry is a directory entry as returned by the storage layer readDir call:
a name plus the classification flags `isDirectory` and `isFile` that the
hooks read.  An entry that is neither (for example a symlink) has both
flags false. -/
structure Entry where
  name : String
  isDirectory : Bool
  isFile : Bool
deriving DecidableEq

/-- Decidability of the lexicographic string order through the character
lists, so that concrete comparisons evaluate inside the kernel. -/
instance (priority := 2000) decidableLeStr (a b : String) : Decidable (a ≤ b) :=
  decidable_of_iff (a.toList ≤ b.toList) String.le_iff_toList_le.symm

/-- sortStrings models the JavaScript `Array.prototype.sort()` call on an
array of strings: lexicographic ascending order. -/
def sortStrings (l : List String) : List String :=
  l.insertionSort (· ≤ ·)

/-- strStartsWith models the JavaScript `String.prototype.startsWith`: the
first argument starts with the second.  Defined on the character lists so
that it evaluates inside the kernel. -/
def strStartsWith (s p : String) : Bool :=
  p.data.isPrefixOf s.data

/-- strEndsWith models the JavaScript `String.prototype.endsWith`: the
first argument ends with the second. -/
def strEndsWith (s p : String) : Bool :=
  p.data.reverse.isPrefixOf s.data.reverse

/-- folderList is the list computed by `useFolders.loadFolders`: keep the
directory entries, drop names beginning with the hidden prefix, map to
names, and keep the listing order (no sort is applied). -/
def folderList (entries : List Entry) : List String :=
  (((entries.filter fun e => e.isDirectory).filter
      fun e => !(strStartsWith e.name ".")).map fun e => e.name)

/-- videoList is the list computed by `useVideos.loadVideos`: keep file
entries whose name ends with the video extension, map to names, sort
ascending (the source comment reads: chronological order, oldest first). -/
def videoList (entries : List Entry) : List String :=
  sortStrings ((entries.filter fun e => e.isFile && strEndsWith e.name ".mov").map
    fun e => e.name)

/-- fileList is the list computed inside the retry loop of
`useFiles.loadFiles`: keep file entries, map to names, sort ascending. -/
def fileList (entries : List Entry) : List String :=
  sortStrings ((entries.filter fun e => e.isFile).map fun e => e.name)

/-- ListingOutcome is the result of one readDir call: the entries on
success, or the thrown error. -/
inductive ListingOutcome where
  | ok (entries : List Entry)
  | err (msg : String)
deriving DecidableEq

/-- LoadFilesResult is the net effect of one `loadFiles` invocation on the
useFiles hook state: `files? = some l` exactly when `setFiles l` ran,
`error?` is the final value of the filesError state (cleared on entry, set
in the catch), and `calls` counts the readDir calls issued. -/
structure LoadFilesResult where
  files? : Option (List String)
  error? : Option String
  calls : Nat
deriving DecidableEq

/-- isCachePath is the test `folder.startsWith(".cache/")` used by the
retry loop to decide whether an empty listing should be retried. -/
def isCachePath (folder : String) : Bool :=
  strStartsWith folder ".cache/"

/-- maxRetries is the attempt budget of the retry loop in
`useFiles.loadFiles`. -/
def maxRetries : Nat := 5

/-- loadFilesLoop is the retry loop of `useFiles.loadFiles`, driven by an
oracle giving the outcome of the readDir call of each attempt index.
`fuel` is the number of attempts left (`maxRetries - attempt`).  An ok
attempt is accepted when its file list is non-empty or the folder is not a
cache path; an empty cache listing retries; an error records `lastError`
and retries.  On exhaustion the last error is re-thrown if present,
otherwise the empty list is published. -/
def loadFilesLoop (folder : String) (oracle : Nat → ListingOutcome) :
    Nat → Nat → Option String → Nat → LoadFilesResult
  | 0, _, lastError, calls =>
    match lastError with
    | some e => ⟨none, some e, calls⟩
    | none => ⟨some [], none, calls⟩
  | fuel + 1, attempt, lastError, calls =>
    match oracle attempt with
    | .ok entries =>
      if decide (0 < (fileList entries).length) || !(isCachePath folder) then
        ⟨some (fileList entries), none, calls + 1⟩
      else
        loadFilesLoop folder oracle fuel (attempt + 1) lastError (calls + 1)
    | .err e =>
      loadFilesLoop folder oracle fuel (attempt + 1) (some e) (calls + 1)

/-- loadFiles is one invocation of `useFiles.loadFiles`: the falsy-folder
guard (null or empty string) publishes the empty list without any storage
call; otherwise the retry loop runs with the full attempt budget. -/
def loadFiles (folder : Option String) (oracle : Nat → ListingOutcome) :
    LoadFilesResult :=
  match folder with
  | none => ⟨some [], none, 0⟩
  | some f =>
    if f = "" then ⟨some [], none, 0⟩
    else loadFilesLoop f oracle maxRetries 0 none 0

/-- IndexState is the published state of one index hook: the last
successfully loaded list together with the last error. -/
structure IndexState where
  list : List String
  error? : Option String
deriving DecidableEq

/-- applyLoadFiles applies one `loadFiles` invocation to the published
useFiles state: `setFiles` ran only when the invocation produced a list,
while the error state is overwritten either way. -/
def applyLoadFiles (prev : IndexState) (r : LoadFilesResult) : IndexState :=
  ⟨r.files?.getD prev.list, r.error?⟩

/-- loadFolders is one invocation of `useFolders.loadFolders` as a state
update: on success the folder list is replaced and the error cleared; in
the catch branch only the error is set and the list is left unchanged. -/
def loadFolders (prev : IndexState) (outcome : ListingOutcome) : IndexState :=
  match outcome with
  | .ok entries => ⟨folderList entries, none⟩
  | .err e => ⟨prev.list, some e⟩

/-- loadVideos is one invocation of `useVideos.loadVideos` as a state
update, with the same success / catch structure as loadFolders. -/
def loadVideos (prev : IndexState) (outcome : ListingOutcome) : IndexState :=
  match outcome with
  | .ok entries => ⟨videoList entries, none⟩
  | .err e => ⟨prev.list, some e⟩

/-- ViewMode is the App view mode: image sequences or videos. -/
inductive ViewMode where
  | images
  | videos
deriving DecidableEq, BEq

/-- isUnselected models the JavaScript falsiness test `!selectedFolder` /
`!selectedVideo`: true for null and for the empty string. -/
def isUnselected : Option String → Bool
  | none => true
  | some s => s = ""

/-- autoSelectFolder is the images-mode auto-selection effect of App.tsx
(lines 36 to 49): when in images mode with a non-empty folder list and no
selection, pick the folder equal to the current date if present, else the
first element of the sorted-then-reversed copy of the list. -/
def autoSelectFolder (viewMode : ViewMode) (currentDateFolder : String)
    (folders : List String) (selectedFolder : Option String) : Option String :=
  if (viewMode == ViewMode.images) && decide (0 < folders.length) &&
      isUnselected selectedFolder then
    match folders.find? (fun f => f == currentDateFolder) with
    | some f => some f
    | none => (sortStrings folders).reverse.head?
  else selectedFolder

/-- autoSelectVideo is the videos-mode auto-selection effect of App.tsx
(lines 52 to 56): when in videos mode with a non-empty video list and no
selection, pick `videos[0]`. -/
def autoSelectVideo (viewMode : ViewMode) (videos : List String)
    (selectedVideo : Option String) : Option String :=
  if (viewMode == ViewMode.videos) && decide (0 < videos.length) &&
      isUnselected selectedVideo then
    videos.head?
  else selectedVideo

/-- stepOf is the step computed in handleKeydown: 1 by default, 10 with the
shift modifier, 100 with the alt modifier (assigned last, so alt wins when
both are held). -/
def stepOf (shift alt : Bool) : Int :=
  if alt then 100 else if shift then 10 else 1

/-- NavOp enumerates the operations of App.tsx that write
currentImageIndex: the two arrow keys with their modifiers, the scrubber,
and the index-reset effect that runs when the folder or file list
changes. -/
inductive NavOp where
  | arrowLeft (shift alt : Bool)
  | arrowRight (shift alt : Bool)
  | scrub (v : Int)
  | resetIndex

/-- applyNav gives the new currentImageIndex produced by one operation in
images mode, for a file list of length `len` and current index `i`
(handleKeydown lines 120 to 135, handleScrubberChange lines 206 to 212,
and the reset effect lines 59 to 63 of App.tsx). -/
def applyNav (len i : Int) : NavOp → Int
  | .arrowLeft shift alt => max 0 (i - stepOf shift alt)
  | .arrowRight shift alt => min (len - 1) (i + stepOf shift alt)
  | .scrub v => v
  | .resetIndex => max (len - 1) 0

/-- navGuard gives the condition under which each operation fires: arrow
keys are ignored in images mode unless the file list is non-empty
(handleKeydown line 116), and the scrubber is a range input declared with
min 0 and max `Math.max(0, len - 1)` (App.tsx lines 456 to 457), so the
value it delivers lies in that interval.  The reset effect always runs. -/
def navGuard (len : Int) : NavOp → Prop
  | .arrowLeft _ _ => 0 < len
  | .arrowRight _ _ => 0 < len
  | .scrub v => 0 ≤ v ∧ v ≤ max 0 (len - 1)
  | .resetIndex => True

/-- indexInv is the clamping invariant: the index lies in
`[0, len - 1]`, which collapses to `{0}` when the list is empty. -/
def indexInv (len i : Int) : Prop :=
  0 ≤ i ∧ i ≤ max 0 (len - 1)

instance (len i : Int) : Decidable (indexInv len i) :=
  inferInstanceAs (Decidable (_ ∧ _))

instance (len : Int) : (op : NavOp) → Decidable (navGuard len op)
  | .arrowLeft _ _ => inferInstanceAs (Decidable (0 < len))
  | .arrowRight _ _ => inferInstanceAs (Decidable (0 < len))
  | .scrub _ => inferInstanceAs (Decidable (_ ∧ _))
  | .resetIndex => inferInstanceAs (Decidable True)

/-- ImgEv is an event of the image-display lifecycle: a `select` is one run
of the loadImage effect (fired whenever selectedFolder, files or
currentImageIndex changes, capturing their values at that render), and
`resolve n` is the arrival of the readFile issued by the n-th select. -/
inductive ImgEv where
  | select (folder : Option String) (files : List String) (idx : Nat)
  | resolve (n : Nat)
deriving DecidableEq

/-- ImgState is the state of the image-display lifecycle: the paths of the
readFile calls issued so far, in issue order, and the bytes backing the
currently committed currentImageSrc (none models null). -/
structure ImgState where
  fetches : List String
  committed : Option String
deriving DecidableEq

/-- imagePathOf is the synchronous guard prefix of loadImage (App.tsx lines
167 to 173): with no folder selected, an empty file list, or a falsy
`files[idx]`, the display is nulled and no read is issued; otherwise the
path `Timelapse/<folder>/<files[idx]>` is read. -/
def imagePathOf (folder : Option String) (files : List String) (idx : Nat) :
    Option String :=
  match folder with
  | none => none
  | some f =>
    if f = "" then none
    else if files.length = 0 then none
    else
      match files.get? idx with
      | none => none
      | some file =>
        if file = "" then none
        else some ("Timelapse/" ++ f ++ "/" ++ file)

/-- stepImage is one event step of the image-display lifecycle.  `env` is
the storage: `env p = some bytes` when readFile of `p` succeeds, none when
it throws.  A select runs the synchronous part of loadImage; a resolve is
the arrival of a fetch, whose continuation commits unconditionally -
`setCurrentImageSrc` with the new blob on success and null on error - with
no comparison of the captured selection against the current one (App.tsx
lines 176 to 191). -/
def stepImage (env : String → Option String) (s : ImgState) : ImgEv → ImgState
  | .select folder files idx =>
    match imagePathOf folder files idx with
    | none => { s with committed := none }
    | some p => { s with fetches := s.fetches ++ [p] }
  | .resolve n =>
    match s.fetches.get? n with
    | some p => { s with committed := env p }
    | none => s

/-- runImage folds an event trace from the initial state (no fetches, null
display). -/
def runImage (env : String → Option String) (evs : List ImgEv) : ImgState :=
  evs.foldl (stepImage env) ⟨[], none⟩

/-- envAB is a concrete storage with one image in folder A and one in
folder B. -/
def envAB : String → Option String := fun p =>
  if p = "Timelapse/A/a.jpg" then some "bytesA"
  else if p = "Timelapse/B/b.jpg" then some "bytesB"
  else none

/-- staleTrace is the racing schedule: the selection changes from folder A
to folder B while the fetch for A is still in flight; the fetch for B
resolves first and the stale fetch for A arrives last. -/
def staleTrace : List ImgEv :=
  [ImgEv.select (some "A") ["a.jpg"] 0,
   ImgEv.select (some "B") ["b.jpg"] 0,
   ImgEv.resolve 1,
   ImgEv.resolve 0]

/-- mixedOracle is a listing history whose first attempt throws and whose
remaining attempts all succeed with an empty listing. -/
def mixedOracle : Nat → ListingOutcome := fun n =>
  if n = 0 then ListingOutcome.err "ENOENT" else ListingOutcome.ok []

/-- twoVideoEntries is a top-level listing holding two video files, listed
newest first. -/
def twoVideoEntries : List Entry :=
  [⟨"2025-09-02_timelapse.mov", false, true⟩,
   ⟨"2025-09-01_timelapse.mov", false, true⟩]

/-- demoVideoEntries is the listing of the spec example: files a.mov,
b.mp4, c.mov. -/
def demoVideoEntries : List Entry :=
  [⟨"a.mov", false, true⟩, ⟨"b.mp4", false, true⟩, ⟨"c.mov", false, true⟩]

/-- demoFolderEntries is a top-level listing with two dated folders out of
lexicographic order, a hidden cache folder, and a stray file. -/
def demoFolderEntries : List Entry :=
  [⟨"2025-01-14", true, false⟩, ⟨".cache", true, false⟩,
   ⟨"2025-01-13", true, false⟩, ⟨"notes.txt", false, true⟩]

/-- demoFileEntries is a folder listing with two image files out of order
and a subdirectory. -/
def demoFileEntries : List Entry :=
  [⟨"b.jpg", false, true⟩, ⟨"sub", true, false⟩, ⟨"a.jpg", false, true⟩]

/-! Helper lemmas about the sort and the retry loop. -/

/-- sortStrings returns an ascending list. -/
theorem sortStrings_sorted (l : List String) : (sortStrings l).Sorted (· ≤ ·) :=
  List.sorted_insertionSort _ l

/-- sortStrings returns a permutation of its input. -/
theorem sortStrings_perm (l : List String) : (sortStrings l).Perm l :=
  List.perm_insertionSort _ l

/-- Every element of a sorted list is bounded by its last element. -/
theorem le_getLast_of_sorted :
    ∀ {l : List String}, l.Sorted (· ≤ ·) → (hne : l ≠ []) →
      ∀ {y : String}, y ∈ l → y ≤ l.getLast hne := by
  intro l
  induction l with
  | nil => intro _ hne; exact absurd rfl hne
  | cons a t ih =>
    intro h hne y hy
    rcases List.sorted_cons.mp h with ⟨ha, ht⟩
    rcases eq_or_ne t [] with rfl | htne
    · have hya : y = a := by simpa using hy
      subst hya
      simp [List.getLast]
    · rw [List.getLast_cons htne]
      rcases List.mem_cons.mp hy with rfl | hyt
      · exact ha _ (List.getLast_mem htne)
      · exact ih ht htne hyt

/-- The head of the reversed sorted copy of a non-empty list is its
maximum. -/
theorem sortStrings_reverse_head_max (l : List String) (hne : l ≠ []) :
    ∃ m, (sortStrings l).reverse.head? = some m ∧ m ∈ l ∧ ∀ y ∈ l, y ≤ m := by
  have hsne : sortStrings l ≠ [] := by
    intro h0
    have hlen := (sortStrings_perm l).length_eq
    rw [h0] at hlen
    exact hne (List.length_eq_zero.mp hlen.symm)
  refine ⟨(sortStrings l).getLast hsne, ?_, ?_, ?_⟩
  · rw [List.head?_reverse]
    exact List.getLast?_eq_getLast _ hsne
  · exact (sortStrings_perm l).mem_iff.mp (List.getLast_mem hsne)
  · intro y hy
    exact le_getLast_of_sorted (sortStrings_sorted l) hsne
      ((sortStrings_perm l).mem_iff.mpr hy)

/-- When the retry loop surfaces an error, it publishes no file list. -/
theorem loadFilesLoop_error_files (folder : String) (oracle : Nat → ListingOutcome) :
    ∀ fuel attempt lastError calls e,
      (loadFilesLoop folder oracle fuel attempt lastError calls).error? = some e →
      (loadFilesLoop folder oracle fuel attempt lastError calls).files? = none := by
  intro fuel
  induction fuel with
  | zero =>
    intro attempt lastError calls e
    cases lastError <;> simp [loadFilesLoop]
  | succ n ih =>
    intro attempt lastError calls e
    cases horacle : oracle attempt with
    | ok entries =>
      simp only [loadFilesLoop, horacle]
      split
      · simp
      · exact ih _ _ _ _
    | err msg =>
      simp only [loadFilesLoop, horacle]
      exact ih _ _ _ _

/-- Any file list published by the retry loop is the file list of one of
the successful attempts in its window, except for the degenerate
zero-fuel base case which publishes the empty list. -/
theorem loadFilesLoop_files_spec (folder : String) (oracle : Nat → ListingOutcome) :
    ∀ fuel attempt lastError calls l,
      (loadFilesLoop folder oracle fuel attempt lastError calls).files? = some l →
      (∃ j entries, attempt ≤ j ∧ j < attempt + fuel ∧
        oracle j = ListingOutcome.ok entries ∧ l = fileList entries) ∨
      (fuel = 0 ∧ l = []) := by
  intro fuel
  induction fuel with
  | zero =>
    intro attempt lastError calls l
    cases lastError with
    | none =>
      intro h
      right
      refine ⟨rfl, ?_⟩
      have : some ([] : List String) = some l := h
      exact (Option.some.inj this).symm
    | some e => intro h; simp [loadFilesLoop] at h
  | succ n ih =>
    intro attempt lastError calls l
    cases horacle : oracle attempt with
    | ok entries =>
      simp only [loadFilesLoop, horacle]
      split
      · intro h
        left
        exact ⟨attempt, entries, le_refl _, by omega, horacle,
          (Option.some.inj h).symm⟩
      · intro h
        rcases ih (attempt + 1) lastError (calls + 1) l h with
          ⟨j, es, hj1, hj2, hj3, hj4⟩ | ⟨hfz, hl⟩
        · exact Or.inl ⟨j, es, by omega, by omega, hj3, hj4⟩
        · subst hfz
          rename_i hcond
          left
          refine ⟨attempt, entries, le_refl _, by omega, horacle, ?_⟩
          have hflen : fileList entries = [] := by
            simp only [Bool.or_eq_true, decide_eq_true_eq, not_or] at hcond
            obtain ⟨h1, _⟩ := hcond
            have hz : (fileList entries).length = 0 := by omega
            exact List.length_eq_zero.mp hz
          rw [hl, hflen]
    | err msg =>
      simp only [loadFilesLoop, horacle]
      intro h
      rcases ih (attempt + 1) (some msg) (calls + 1) l h with
        ⟨j, es, hj1, hj2, hj3, hj4⟩ | ⟨hfz, hl⟩
      · exact Or.inl ⟨j, es, by omega, by omega, hj3, hj4⟩
      · subst hfz
        simp [loadFilesLoop] at h

/-- A run of the retry loop on a cache path whose attempts all succeed
with empty listings consumes its whole fuel and publishes the empty list
with no error. -/
theorem loadFilesLoop_all_empty (folder : String) (oracle : Nat → ListingOutcome)
    (hcache : isCachePath folder = true) :
    ∀ fuel attempt calls,
      (∀ k, attempt ≤ k → k < attempt + fuel →
        ∃ entries, oracle k = ListingOutcome.ok entries ∧ fileList entries = []) →
      loadFilesLoop folder oracle fuel attempt none calls =
        ⟨some [], none, calls + fuel⟩ := by
  intro fuel
  induction fuel with
  | zero => intro attempt calls _; simp [loadFilesLoop]
  | succ n ih =>
    intro attempt calls h
    obtain ⟨entries, hok, hemp⟩ := h attempt (le_refl _) (by omega)
    simp only [loadFilesLoop, hok, hemp, hcache]
    have hrec := ih (attempt + 1) (calls + 1)
      (fun k hk1 hk2 => h k (by omega) (by omega))
    rw [if_neg (by decide), hrec]
    simp only [LoadFilesResult.mk.injEq]
    exact ⟨trivial, trivial, by omega⟩

/-! Claim theorems. -/

/-- C1, counterexample.  The claim states that when the selection changes
from folder A to folder B before the fetch for A resolves, the stale
result is discarded on arrival and the committed DisplayResource reflects
B, never A.  In the code the continuation of `loadImage` commits
unconditionally, so on the schedule `staleTrace` (select A, select B, the
fetch for B resolves, then the stale fetch for A arrives) the committed
resource holds the bytes of A even though the current selection is B and
both fetches resolved. -/
theorem loadImage_supersession_cex :
    (runImage envAB staleTrace).committed = some "bytesA" ∧
    envAB "Timelapse/A/a.jpg" = some "bytesA" ∧
    envAB "Timelapse/B/b.jpg" = some "bytesB" ∧
    (runImage envAB staleTrace).committed ≠ some "bytesB" := by decide

/-- C1, amended.  The `loadImage` effect performs no supersession check:
every arrival commits, so the committed DisplayResource is the one whose
fetch resolved last.  Whenever a trace extends by the resolution of the
fetch of path `p`, the committed display becomes the read of `p` - the new
selection wins only when its fetch arrives last. -/
theorem loadImage_last_arrival_wins (env : String → Option String)
    (evs : List ImgEv) (n : Nat) (p : String)
    (h : (runImage env evs).fetches.get? n = some p) :
    (runImage env (evs ++ [ImgEv.resolve n])).committed = env p := by
  rw [runImage, List.foldl_append]
  rw [runImage] at h
  rw [List.get?_eq_getElem?] at h
  simp [stepImage, h]

/-- C1, witness for the amended theorem, instantiated on the racing
schedule: the stale fetch for folder A arrives last and its bytes are
committed. -/
theorem loadImage_last_arrival_wins_witness :
    (runImage envAB
      ([ImgEv.select (some "A") ["a.jpg"] 0,
        ImgEv.select (some "B") ["b.jpg"] 0,
        ImgEv.resolve 1] ++ [ImgEv.resolve 0])).committed =
      envAB "Timelapse/A/a.jpg" :=
  loadImage_last_arrival_wins envAB
    [ImgEv.select (some "A") ["a.jpg"] 0,
     ImgEv.select (some "B") ["b.jpg"] 0,
     ImgEv.resolve 1] 0 "Timelapse/A/a.jpg" (by decide)

/-- C2, counterexample.  The claim states that every cache-path listing
whose final attempt returns a successful empty result yields the empty
sequence as a success.  On the history `mixedOracle` (first attempt
throws, the remaining four attempts - including the final one - succeed
with an empty listing) the loop exhausts its budget and re-throws the
recorded error, so the invocation ends in the error state with no list
published, although its fifth attempt was a successful empty result. -/
theorem listWithRetry_exhaustion_cex :
    (loadFiles (some ".cache/v1") mixedOracle).files? = none ∧
    (loadFiles (some ".cache/v1") mixedOracle).error? = some "ENOENT" ∧
    (loadFiles (some ".cache/v1") mixedOracle).calls = 5 ∧
    mixedOracle (maxRetries - 1) = ListingOutcome.ok [] ∧
    isCachePath ".cache/v1" = true := by decide

/-- C2, amended: a cache-path listing all five of whose attempts return a
successful empty result publishes the empty sequence as a success, not an
error, after exactly five underlying listing calls; an empty final result
is surfaced as an error only when some earlier attempt failed, in which
case the recorded error is re-thrown. -/
theorem listWithRetry_empty_exhaustion (folder : String)
    (oracle : Nat → ListingOutcome) (hcache : isCachePath folder = true)
    (hok : ∀ k, k < maxRetries →
      ∃ entries, oracle k = ListingOutcome.ok entries ∧ fileList entries = []) :
    loadFiles (some folder) oracle = ⟨some [], none, 5⟩ := by
  have hne : folder ≠ "" := by
    intro h0
    subst h0
    exact (by decide : ¬ isCachePath "" = true) hcache
  have hall := loadFilesLoop_all_empty folder oracle hcache maxRetries 0 0
    (fun k _ hk2 => hok k (by omega))
  simp only [loadFiles, if_neg hne, hall]
  rfl

/-- C2, witness: the all-empty cache history, evaluated concretely. -/
theorem listWithRetry_empty_exhaustion_witness :
    loadFiles (some ".cache/v1") (fun _ => ListingOutcome.ok []) =
      ⟨some [], none, 5⟩ :=
  listWithRetry_empty_exhaustion ".cache/v1" (fun _ => ListingOutcome.ok [])
    (by decide) (fun k _ => ⟨[], rfl, rfl⟩)

/-- C3 (code bug).  With two videos on disk, `useVideos` sorts ascending
(its own comment reads: chronological order, oldest first) while the
auto-selection effect picks `videos[0]` under the comment that the list is
already sorted most recent first; the composition therefore selects the
chronologically least filename, while the claim, the comments, and the
intent of the test suite require the most recent (the greatest) one. -/
theorem autoSelectVideo_picks_oldest :
    videoList twoVideoEntries =
      ["2025-09-01_timelapse.mov", "2025-09-02_timelapse.mov"] ∧
    autoSelectVideo ViewMode.videos (videoList twoVideoEntries) none =
      some "2025-09-01_timelapse.mov" ∧
    "2025-09-02_timelapse.mov" ∈ videoList twoVideoEntries ∧
    (∀ y ∈ videoList twoVideoEntries, y ≤ "2025-09-02_timelapse.mov") ∧
    ("2025-09-01_timelapse.mov" : String) ≠ "2025-09-02_timelapse.mov" := by
  decide

/-- C4: for every top-level listing, the video index is sorted
lexicographically ascending (not reversed) and is exactly the names of the
file entries whose name ends with the recognized extension; on the listing
a.mov, b.mp4, c.mov it returns a.mov, c.mov. -/
theorem videoList_spec :
    (∀ entries : List Entry,
      (videoList entries).Sorted (· ≤ ·) ∧
      (videoList entries).Perm
        ((entries.filter fun e => e.isFile && strEndsWith e.name ".mov").map
          fun e => e.name)) ∧
    videoList demoVideoEntries = ["a.mov", "c.mov"] :=
  ⟨fun _ => ⟨sortStrings_sorted _, sortStrings_perm _⟩, by decide⟩

/-- C5: every operation that writes currentImageIndex in images mode
(arrow navigation with step 1, 10 or 100, the scrubber, and the index
reset) preserves the clamping invariant, and in particular a forward move
by step 10 from index 4 in a sequence of length 5 leaves the index at 4. -/
theorem currentImageIndex_clamped :
    (∀ (len i : Int) (op : NavOp), indexInv len i → navGuard len op →
      indexInv len (applyNav len i op)) ∧
    applyNav 5 4 (NavOp.arrowRight true false) = 4 := by
  constructor
  · intro len i op hinv hop
    have hstep : ∀ s a : Bool, (1 : Int) ≤ stepOf s a := by
      intro s a
      cases s <;> cases a <;> simp [stepOf]
    cases op with
    | arrowLeft s a =>
      have := hstep s a
      simp only [applyNav, navGuard, indexInv] at *
      omega
    | arrowRight s a =>
      have := hstep s a
      simp only [applyNav, navGuard, indexInv] at *
      omega
    | scrub v =>
      simp only [applyNav, navGuard, indexInv] at *
      omega
    | resetIndex =>
      simp only [applyNav, indexInv]
      omega
  · decide

/-- C5, witness: the step-10 move at the right boundary of a length-5
sequence keeps the invariant. -/
theorem currentImageIndex_clamped_witness :
    indexInv 5 (applyNav 5 4 (NavOp.arrowRight true false)) :=
  currentImageIndex_clamped.1 5 4 (NavOp.arrowRight true false)
    (by decide) (by decide)

/-- C6: in images mode, when the folder list becomes non-empty with no
selection, the effect selects the folder equal to the current date when
present, and otherwise the lexicographically greatest folder. -/
theorem autoSelectFolder_spec (today : String) (folders : List String)
    (hne : folders ≠ []) :
    (today ∈ folders →
      autoSelectFolder ViewMode.images today folders none = some today) ∧
    (today ∉ folders →
      ∃ m, autoSelectFolder ViewMode.images today folders none = some m ∧
        m ∈ folders ∧ ∀ y ∈ folders, y ≤ m) := by
  have hcond : ((ViewMode.images == ViewMode.images) &&
      decide (0 < folders.length) && isUnselected (none : Option String)) = true := by
    have hlen : 0 < folders.length := List.length_pos.mpr hne
    have hbeq : (ViewMode.images == ViewMode.images) = true := by decide
    simp [isUnselected, hlen, hbeq]
  constructor
  · intro hmem
    have hsome : (folders.find? fun g => g == today).isSome := by
      rw [List.find?_isSome]
      exact ⟨today, hmem, by simp⟩
    obtain ⟨f, hf⟩ := Option.isSome_iff_exists.mp hsome
    have hfeq : f = today := by
      have h2 := List.find?_some hf
      simpa using h2
    rw [autoSelectFolder, if_pos hcond, hf, hfeq]
  · intro hnmem
    have hnone : (folders.find? fun g => g == today) = none := by
      rw [List.find?_eq_none]
      intro x hx
      simp only [beq_iff_eq]
      rintro rfl
      exact hnmem hx
    obtain ⟨m, hm1, hm2, hm3⟩ := sortStrings_reverse_head_max folders hne
    refine ⟨m, ?_, hm2, hm3⟩
    rw [autoSelectFolder, if_pos hcond, hnone, hm1]

/-- C6, witness: on the folders 2025-01-13 and 2025-01-14 with current
date 2025-01-15 the auto-selected folder is the greatest listed one. -/
theorem autoSelectFolder_spec_witness :
    ∃ m, autoSelectFolder ViewMode.images "2025-01-15"
        ["2025-01-13", "2025-01-14"] none = some m ∧
      m ∈ ["2025-01-13", "2025-01-14"] ∧
      ∀ y ∈ ["2025-01-13", "2025-01-14"], y ≤ m :=
  (autoSelectFolder_spec "2025-01-15" ["2025-01-13", "2025-01-14"]
    (by decide)).2 (by decide)

/-- C7: for every non-null (and non-empty, which the guard treats as null)
folder and every invocation that publishes a file list, the published list
is sorted lexicographically ascending and is exactly the names of the
entries classified as files of one successful underlying listing, with no
folder entries present. -/
theorem useFiles_sorted_exact (folder : String) (oracle : Nat → ListingOutcome)
    (l : List String) (hne : folder ≠ "")
    (h : (loadFiles (some folder) oracle).files? = some l) :
    l.Sorted (· ≤ ·) ∧
    ∃ k entries, k < maxRetries ∧ oracle k = ListingOutcome.ok entries ∧
      l = fileList entries ∧
      l.Perm ((entries.filter fun e => e.isFile).map fun e => e.name) := by
  simp only [loadFiles, if_neg hne] at h
  rcases loadFilesLoop_files_spec folder oracle maxRetries 0 none 0 l h with
    ⟨j, entries, _, hj2, hj3, hj4⟩ | ⟨hfz, _⟩
  · subst hj4
    exact ⟨sortStrings_sorted _,
      j, entries, by simpa using hj2, hj3, rfl, sortStrings_perm _⟩
  · exact absurd hfz (by decide)

/-- C7, witness: one successful listing with two files out of order and a
subdirectory publishes exactly the two file names, sorted. -/
theorem useFiles_sorted_exact_witness :
    (["a.jpg", "b.jpg"] : List String).Sorted (· ≤ ·) ∧
    ∃ k entries, k < maxRetries ∧
      (fun _ => ListingOutcome.ok demoFileEntries) k = ListingOutcome.ok entries ∧
      (["a.jpg", "b.jpg"] : List String) = fileList entries ∧
      (["a.jpg", "b.jpg"] : List String).Perm
        ((entries.filter fun e => e.isFile).map fun e => e.name) :=
  useFiles_sorted_exact "2025-01-01" (fun _ => ListingOutcome.ok demoFileEntries)
    ["a.jpg", "b.jpg"] (by decide) (by decide)

/-- C8: the folder index is exactly the names of the directory entries
whose name does not begin with the hidden prefix, as a subsequence of the
listing in its original order (no sorting applied); the concrete listing
shows the order is preserved rather than sorted, the hidden cache folder
is excluded and the file entry is excluded. -/
theorem useFolders_exact_order :
    (∀ entries : List Entry,
      (folderList entries).Sublist (entries.map fun e => e.name) ∧
      ∀ x, x ∈ folderList entries ↔
        ∃ e ∈ entries, e.isDirectory = true ∧
          strStartsWith e.name "." = false ∧ e.name = x) ∧
    folderList demoFolderEntries = ["2025-01-14", "2025-01-13"] := by
  refine ⟨fun entries => ⟨?_, ?_⟩, by decide⟩
  · exact (((entries.filter fun e => e.isDirectory).filter_sublist.trans
      entries.filter_sublist).map fun e => e.name)
  · intro x
    simp only [folderList, List.mem_map, List.mem_filter, Bool.not_eq_true']
    constructor
    · rintro ⟨e, ⟨⟨he, hd⟩, hh⟩, hx⟩
      exact ⟨e, he, hd, hh, hx⟩
    · rintro ⟨e, he, hd, hh, hx⟩
      exact ⟨e, ⟨⟨he, hd⟩, hh⟩, hx⟩

/-- C9: a null folder argument, and likewise the empty-string folder name
which the falsiness guard treats the same way, yields the empty file list
as a success with zero storage-listing calls. -/
theorem useFiles_null_fast_path :
    (∀ oracle, loadFiles none oracle = ⟨some [], none, 0⟩) ∧
    ∀ oracle, loadFiles (some "") oracle = ⟨some [], none, 0⟩ :=
  ⟨fun _ => rfl, fun _ => rfl⟩

/-- C10: a failed listing sets only the corresponding error field; the
previously published list is retained.  For useFolders and useVideos the
catch branch writes only the error; for useFiles, an invocation that ends
in the error state publishes no list, so the state update keeps the prior
list and records the error. -/
theorem listing_error_atomicity :
    (∀ (prev : IndexState) (e : String),
      loadFolders prev (ListingOutcome.err e) = ⟨prev.list, some e⟩) ∧
    (∀ (prev : IndexState) (e : String),
      loadVideos prev (ListingOutcome.err e) = ⟨prev.list, some e⟩) ∧
    ∀ (prev : IndexState) (folder : Option String)
      (oracle : Nat → ListingOutcome) (e : String),
      (loadFiles folder oracle).error? = some e →
      applyLoadFiles prev (loadFiles folder oracle) = ⟨prev.list, some e⟩ := by
  refine ⟨fun _ _ => rfl, fun _ _ => rfl, ?_⟩
  intro prev folder oracle e h
  have hnone : (loadFiles folder oracle).files? = none := by
    cases folder with
    | none => simp [loadFiles] at h
    | some f =>
      by_cases hf : f = ""
      · subst hf
        simp [loadFiles] at h
      · simp only [loadFiles, if_neg hf] at h ⊢
        exact loadFilesLoop_error_files f oracle maxRetries 0 none 0 e h
  simp [applyLoadFiles, hnone, h]

/-- C10, witness: a thrown folder listing keeps the prior folder list, and
a file listing that exhausts its retries with errors keeps the prior file
list while recording the error. -/
theorem listing_error_atomicity_witness :
    loadFolders ⟨["2025-01-14"], none⟩ (ListingOutcome.err "EIO") =
      ⟨["2025-01-14"], some "EIO"⟩ ∧
    applyLoadFiles ⟨["x.jpg"], none⟩
        (loadFiles (some ".cache/v1") fun _ => ListingOutcome.err "boom") =
      ⟨["x.jpg"], some "boom"⟩ :=
  ⟨listing_error_atomicity.1 ⟨["2025-01-14"], none⟩ "EIO",
   listing_error_atomicity.2.2 ⟨["x.jpg"], none⟩ (some ".cache/v1")
     (fun _ => ListingOutcome.err "boom") "boom" (by decide)⟩
